import Mathlib

/-!
Shallow embedding of `transforms.py`: paired image/target transformations
used to augment training data for a Faster R-CNN style detector.

Floating-point coordinates are modelled as rationals; the process-wide
uniform draw `random.random()` is passed explicitly to the randomized
transforms; the IndexError raised by `target[0]` on an empty annotation
list is modelled as `Option.none`; a transform unit that raises inside
`Compose` is modelled as returning `Except.error`.
-/

/-- A raw COCO bounding box `[min_x, min_y, width, height]` (line 81 of the source
destructures `annotation["bbox"]` into exactly these four components). -/
structure Bbox where
  min_x : ℚ
  min_y : ℚ
  width : ℚ
  height : ℚ
deriving DecidableEq, Repr

/-- A raw COCO-style object record: the keys of the dict read by `ToFRCNNFormat`. -/
structure Annot where
  bbox : Bbox
  category_id : ℤ
  image_id : ℤ
deriving DecidableEq, Repr

/-- A box row in min/max form `[min_x, min_y, max_x, max_y]`. -/
structure Box where
  min_x : ℚ
  min_y : ℚ
  max_x : ℚ
  max_y : ℚ
deriving DecidableEq, Repr

/-- Normalized detection target: the dict built by `ToFRCNNFormat` and consumed by the
flip transforms (`boxes` tensor as a list of rows, `labels`, length-1 `image_id`). -/
structure Target where
  boxes : List Box
  labels : List ℤ
  image_id : List ℤ
deriving DecidableEq, Repr

/-- Abstract image handle: dimensions plus flags recording which pixel-level
conversions have been applied (the pixel contents themselves are opaque). -/
structure Image where
  width : ℚ
  height : ℚ
  hflipped : Bool
  vflipped : Bool
  gray : Bool
  tensor : Bool
deriving DecidableEq, Repr

/-- `F.hflip`: mirror the image across the vertical axis; size is preserved and
mirroring twice restores the original pixels. -/
def hflip (image : Image) : Image :=
  { image with hflipped := !image.hflipped }

/-- `F.vflip`: mirror the image across the horizontal axis; size is preserved. -/
def vflip (image : Image) : Image :=
  { image with vflipped := !image.vflipped }

/-- Grayscale conversion of the pixels (inherited torchvision behaviour); size preserved. -/
def toGrayscale (image : Image) : Image :=
  { image with gray := true }

/-- `F.to_tensor`: convert the image into the normalized tensor representation. -/
def to_tensor (image : Image) : Image :=
  { image with tensor := true }

/-- The `target` argument of `ToFRCNNFormat.__call__`: either a single raw record or a
list of them (line 77 tests `isinstance(target, list)`). -/
inductive RawTarget where
  | single (a : Annot)
  | list (anns : List Annot)
deriving DecidableEq, Repr

namespace ToFRCNNFormat

/-- Body of the loop in `ToFRCNNFormat.__call__` (lines 81-84):
`box = [min_x, min_y, min_x + width, min_y + height]`. -/
def annBox (ann : Annot) : Box :=
  let min_x := ann.bbox.min_x
  let min_y := ann.bbox.min_y
  let max_x := min_x + ann.bbox.width
  let max_y := min_y + ann.bbox.height
  { min_x := min_x, min_y := min_y, max_x := max_x, max_y := max_y }

/-- `ToFRCNNFormat.__call__` (lines 74-95). A non-list target is wrapped into a
one-element list first; `none` models the IndexError raised by `target[0]` on line 79
when the annotation list is empty. -/
def call (image : Image) (target : RawTarget) : Option (Image × Target) :=
  let anns : List Annot :=
    match target with
    | .single a => [a]
    | .list anns => anns
  match anns with
  | [] => none
  | first :: rest =>
    let image_id : List ℤ := [first.image_id]
    let boxes : List Box := (first :: rest).map annBox
    let labels : List ℤ := (first :: rest).map (fun a => a.category_id)
    some (image, { boxes := boxes, labels := labels, image_id := image_id })

end ToFRCNNFormat

/-- The simultaneous column assignment `bbox[:, [0, 2]] = width - bbox[:, [2, 0]]`
(line 46): per row, new `min_x = width - old max_x`, new `max_x = width - old min_x`. -/
def hflipBoxes (width : ℚ) (bbox : List Box) : List Box :=
  bbox.map (fun b => { b with min_x := width - b.max_x, max_x := width - b.min_x })

/-- The simultaneous column assignment `bbox[:, [1, 3]] = height - bbox[:, [3, 1]]`
(line 63): per row, new `min_y = height - old max_y`, new `max_y = height - old min_y`. -/
def vflipBoxes (height : ℚ) (bbox : List Box) : List Box :=
  bbox.map (fun b => { b with min_y := height - b.max_y, max_y := height - b.min_y })

namespace RandomHorizontalFlip

/-- `RandomHorizontalFlip.__call__` (lines 40-48), with the uniform draw
`random.random()` passed explicitly: pass through when `draw >= p`, otherwise mirror
the image, read the width from the flipped image, and remap the box columns. -/
def call (p draw : ℚ) (image : Image) (target : Target) : Image × Target :=
  if draw ≥ p then (image, target)
  else
    let flipped_image := hflip image
    let width := flipped_image.width
    let bbox := hflipBoxes width target.boxes
    (flipped_image, { target with boxes := bbox })

end RandomHorizontalFlip

namespace RandomVerticalFlip

/-- `RandomVerticalFlip.__call__` (lines 57-65): pass through when `draw >= p`,
otherwise mirror the image vertically, read the height from the original image, and
remap the box columns. -/
def call (p draw : ℚ) (image : Image) (target : Target) : Image × Target :=
  if draw ≥ p then (image, target)
  else
    let flipped_image := vflip image
    let height := image.height
    let bbox := vflipBoxes height target.boxes
    (flipped_image, { target with boxes := bbox })

end RandomVerticalFlip

namespace RandomGrayscale

/-- `RandomGrayscale.__call__` (lines 29-31): the inherited image-only transform either
converts the image or leaves it as is (`converted` records that inherited random
decision); the target is returned unchanged. -/
def call (converted : Bool) (image : Image) (target : Target) : Image × Target :=
  let grayscale_image := if converted then toGrayscale image else image
  (grayscale_image, target)

end RandomGrayscale

namespace ToTensor

/-- `ToTensor.__call__` (lines 103-105). -/
def call (image : Image) (target : Target) : Image × Target :=
  (to_tensor image, target)

end ToTensor

namespace Compose

/-- `Compose.__call__` (lines 17-20): thread `(image, target)` through each transform in
list order. A transform that raises is modelled as returning `Except.error`; the loop
stops there and the error propagates unchanged. -/
def call {ε : Type} (transforms : List (Image → Target → Except ε (Image × Target)))
    (image : Image) (target : Target) : Except ε (Image × Target) :=
  match transforms with
  | [] => .ok (image, target)
  | transform :: rest =>
    match transform image target with
    | .error e => .error e
    | .ok (image2, target2) => call rest image2 target2

end Compose

/-- A concrete 640 x 480 image used as a test input. -/
def exImage : Image :=
  { width := 640, height := 480, hflipped := false, vflipped := false,
    gray := false, tensor := false }

/-- A concrete raw record used as a test input. -/
def exAnn : Annot :=
  { bbox := { min_x := 10, min_y := 20, width := 30, height := 40 },
    category_id := 1, image_id := 7 }

/-- The normalized target corresponding to `exAnn`. -/
def exTarget : Target :=
  { boxes := [{ min_x := 10, min_y := 20, max_x := 40, max_y := 60 }],
    labels := [1], image_id := [7] }

/-- A transform unit that always raises, used as a test input for `Compose`. -/
def failT : Image → Target → Except ℕ (Image × Target) :=
  fun _ _ => .error 5

/-- C1: for a non-empty list of raw records, `ToFRCNNFormat` returns the image unchanged
and a target whose `boxes` has one entry per record with `boxes[i] = [x, y, x+w, y+h]`
for the i-th record's bbox `[x, y, w, h]`, whose `labels` are the `category_id` values
in input order, and whose `image_id` is the first record's `image_id` as a length-1
sequence. -/
theorem toFRCNNFormat_nonempty_spec (image : Image) (a : Annot) (rest : List Annot) :
    ∃ t : Target,
      ToFRCNNFormat.call image (RawTarget.list (a :: rest)) = some (image, t)
      ∧ t.boxes.length = (a :: rest).length
      ∧ t.labels.length = (a :: rest).length
      ∧ (∀ i : ℕ, t.boxes[i]? = ((a :: rest)[i]?).map (fun an =>
          { min_x := an.bbox.min_x, min_y := an.bbox.min_y,
            max_x := an.bbox.min_x + an.bbox.width,
            max_y := an.bbox.min_y + an.bbox.height }))
      ∧ (∀ i : ℕ, t.labels[i]? = ((a :: rest)[i]?).map (fun an => an.category_id))
      ∧ t.image_id = [a.image_id] := by
  refine ⟨_, rfl, ?_, ?_, ?_, ?_, rfl⟩
  · simp [ToFRCNNFormat.call]
  · simp [ToFRCNNFormat.call]
  · intro i
    cases i with
    | zero => simp [ToFRCNNFormat.call, ToFRCNNFormat.annBox]
    | succ n =>
      cases h : rest[n]? <;>
        simp [ToFRCNNFormat.call, ToFRCNNFormat.annBox, List.getElem?_map, h]
  · intro i
    cases i with
    | zero => simp [ToFRCNNFormat.call]
    | succ n => simp [ToFRCNNFormat.call, List.getElem?_map]

/-- C2 counterexample: on the empty annotation list the Format Normalizer fails (the
`target[0]` lookup on line 79 raises), so it does not produce an empty target. -/
theorem toFRCNNFormat_empty_fails :
    ToFRCNNFormat.call exImage (RawTarget.list []) = none := rfl

/-- C2 amended: on an empty annotation list `ToFRCNNFormat` raises an index lookup
error (modelled as `none`) and produces no target at all. -/
theorem toFRCNNFormat_empty_raises (image : Image) :
    ToFRCNNFormat.call image (RawTarget.list []) = none := rfl

/-- C3: when the draw is below `p`, the horizontal flip mirrors the image and remaps
every box `[x0, y0, x1, y1]` to `[W - x1, y0, W - x0, y1]` for image width `W`, leaving
labels and image_id untouched; otherwise image and target pass through unchanged. -/
theorem randomHorizontalFlip_spec (p draw : ℚ) (image : Image) (target : Target) :
    RandomHorizontalFlip.call p draw image target =
      if draw < p then
        (hflip image,
          { boxes := target.boxes.map (fun b =>
              { min_x := image.width - b.max_x, min_y := b.min_y,
                max_x := image.width - b.min_x, max_y := b.max_y }),
            labels := target.labels, image_id := target.image_id })
      else (image, target) := by
  rcases lt_or_ge draw p with h | h
  · rw [if_pos h]
    rw [RandomHorizontalFlip.call, if_neg (not_le.mpr h)]
    rfl
  · rw [if_neg (not_lt.mpr h)]
    rw [RandomHorizontalFlip.call, if_pos h]

/-- C4: both flips apply exactly when the uniform draw is strictly below `p`; in
particular a draw equal to `p` does not trigger the transform, and any draw below `p`
does. -/
theorem flip_boundary_spec (p draw : ℚ) (image : Image) (target : Target) :
    (draw < p →
      RandomHorizontalFlip.call p draw image target =
        (hflip image, { target with boxes := hflipBoxes (hflip image).width target.boxes })
      ∧ RandomVerticalFlip.call p draw image target =
        (vflip image, { target with boxes := vflipBoxes image.height target.boxes }))
    ∧ (p ≤ draw →
      RandomHorizontalFlip.call p draw image target = (image, target)
      ∧ RandomVerticalFlip.call p draw image target = (image, target))
    ∧ RandomHorizontalFlip.call p p image target = (image, target)
    ∧ RandomVerticalFlip.call p p image target = (image, target) := by
  refine ⟨fun h => ?_, fun h => ?_, ?_, ?_⟩
  · rw [RandomHorizontalFlip.call, if_neg (not_le.mpr h),
      RandomVerticalFlip.call, if_neg (not_le.mpr h)]
    exact ⟨rfl, rfl⟩
  · rw [RandomHorizontalFlip.call, if_pos h, RandomVerticalFlip.call, if_pos h]
    exact ⟨rfl, rfl⟩
  · rw [RandomHorizontalFlip.call, if_pos le_rfl]
  · rw [RandomVerticalFlip.call, if_pos le_rfl]

/-- C4 witness: with `p = 1` a draw of `0` triggers the flip; with `p = 1/2` a draw of
exactly `1/2` passes through. -/
theorem flip_boundary_spec_witness :
    RandomHorizontalFlip.call 1 0 exImage exTarget =
      (hflip exImage, { exTarget with boxes := hflipBoxes (hflip exImage).width exTarget.boxes })
    ∧ RandomHorizontalFlip.call (1 / 2) (1 / 2) exImage exTarget = (exImage, exTarget) :=
  ⟨((flip_boundary_spec 1 0 exImage exTarget).1 (by norm_num)).1,
    (flip_boundary_spec (1 / 2) (1 / 2) exImage exTarget).2.2.1⟩

/-- Remapping the horizontal-flip columns twice with the same width is the identity. -/
theorem hflipBoxes_hflipBoxes (width : ℚ) (bbox : List Box) :
    hflipBoxes width (hflipBoxes width bbox) = bbox := by
  induction bbox with
  | nil => rfl
  | cons b l ih =>
    cases b
    simp only [hflipBoxes, List.map_cons] at ih ⊢
    rw [ih]
    simp

/-- C5: with the decision forced to apply both times, applying the horizontal flip twice
returns every box to its original coordinates - the remapping is its own inverse. -/
theorem randomHorizontalFlip_involutive (p d1 d2 : ℚ) (image : Image) (target : Target)
    (h1 : d1 < p) (h2 : d2 < p) :
    ((RandomHorizontalFlip.call p d2
        (RandomHorizontalFlip.call p d1 image target).1
        (RandomHorizontalFlip.call p d1 image target).2).2).boxes = target.boxes := by
  have e1 : RandomHorizontalFlip.call p d1 image target =
      (hflip image,
        { target with boxes := hflipBoxes (hflip image).width target.boxes }) := by
    rw [RandomHorizontalFlip.call, if_neg (not_le.mpr h1)]
  have e2 : ∀ (img : Image) (tgt : Target), RandomHorizontalFlip.call p d2 img tgt =
      (hflip img, { tgt with boxes := hflipBoxes (hflip img).width tgt.boxes }) := by
    intro img tgt
    rw [RandomHorizontalFlip.call, if_neg (not_le.mpr h2)]
  rw [e1, e2]
  exact hflipBoxes_hflipBoxes image.width target.boxes

/-- C5 witness: double forced flip on a concrete target restores its box. -/
theorem randomHorizontalFlip_involutive_witness :
    ((RandomHorizontalFlip.call 1 0
        (RandomHorizontalFlip.call 1 0 exImage exTarget).1
        (RandomHorizontalFlip.call 1 0 exImage exTarget).2).2).boxes = exTarget.boxes :=
  randomHorizontalFlip_involutive 1 0 0 exImage exTarget (by norm_num) (by norm_num)

/-- C6: a single raw record (not wrapped in a list) yields output identical to the
one-element list containing it. -/
theorem toFRCNNFormat_single_eq_list (image : Image) (a : Annot) :
    ToFRCNNFormat.call image (RawTarget.single a) =
      ToFRCNNFormat.call image (RawTarget.list [a]) := rfl

/-- C7: every normalizer output satisfies `len boxes = len labels`, and the equality is
preserved by horizontal flip, vertical flip, grayscale and tensor conversion, in both
their apply and pass-through branches. -/
theorem boxes_labels_length_invariant :
    (∀ (image : Image) (raw : RawTarget) (out : Image × Target),
      ToFRCNNFormat.call image raw = some out →
        out.2.boxes.length = out.2.labels.length)
    ∧ (∀ (p draw : ℚ) (image : Image) (target : Target),
      target.boxes.length = target.labels.length →
        (RandomHorizontalFlip.call p draw image target).2.boxes.length =
          (RandomHorizontalFlip.call p draw image target).2.labels.length)
    ∧ (∀ (p draw : ℚ) (image : Image) (target : Target),
      target.boxes.length = target.labels.length →
        (RandomVerticalFlip.call p draw image target).2.boxes.length =
          (RandomVerticalFlip.call p draw image target).2.labels.length)
    ∧ (∀ (converted : Bool) (image : Image) (target : Target),
      target.boxes.length = target.labels.length →
        (RandomGrayscale.call converted image target).2.boxes.length =
          (RandomGrayscale.call converted image target).2.labels.length)
    ∧ (∀ (image : Image) (target : Target),
      target.boxes.length = target.labels.length →
        (ToTensor.call image target).2.boxes.length =
          (ToTensor.call image target).2.labels.length) := by
  refine ⟨?_, ?_, ?_, ?_, ?_⟩
  · intro image raw out h
    rcases raw with a | anns
    · cases h.symm
      simp [ToFRCNNFormat.call]
    · rcases anns with _ | ⟨a, rest⟩
      · exact absurd h (by simp [ToFRCNNFormat.call])
      · cases h.symm
        simp [ToFRCNNFormat.call]
  · intro p draw image target h
    rw [RandomHorizontalFlip.call]
    split
    · exact h
    · simpa [hflipBoxes] using h
  · intro p draw image target h
    rw [RandomVerticalFlip.call]
    split
    · exact h
    · simpa [vflipBoxes] using h
  · intro converted image target h
    exact h
  · intro image target h
    exact h

/-- C7 witness: the invariant is preserved on a concrete flipped target. -/
theorem boxes_labels_length_invariant_witness :
    (RandomHorizontalFlip.call 1 0 exImage exTarget).2.boxes.length =
      (RandomHorizontalFlip.call 1 0 exImage exTarget).2.labels.length :=
  boxes_labels_length_invariant.2.1 1 0 exImage exTarget (by decide)

/-- C8: grayscale and tensor conversion return the target with boxes, labels and
image_id unchanged, whether or not the image is converted. -/
theorem grayscale_toTensor_preserve_target (converted : Bool) (image : Image)
    (target : Target) :
    (RandomGrayscale.call converted image target).2 = target
    ∧ (ToTensor.call image target).2 = target
    ∧ (RandomGrayscale.call converted image target).2.boxes = target.boxes
    ∧ (RandomGrayscale.call converted image target).2.labels = target.labels
    ∧ (RandomGrayscale.call converted image target).2.image_id = target.image_id
    ∧ (ToTensor.call image target).2.boxes = target.boxes
    ∧ (ToTensor.call image target).2.labels = target.labels
    ∧ (ToTensor.call image target).2.image_id = target.image_id :=
  ⟨rfl, rfl, rfl, rfl, rfl, rfl, rfl, rfl⟩

/-- C9: `Compose` threads the pair through the transform units in list order - the empty
list returns the input, a successful head feeds its output to the remaining units, and a
raising head propagates its failure unchanged with no partial result. -/
theorem compose_spec {ε : Type} (t : Image → Target → Except ε (Image × Target))
    (ts : List (Image → Target → Except ε (Image × Target)))
    (image : Image) (target : Target) :
    Compose.call ([] : List (Image → Target → Except ε (Image × Target))) image target
      = .ok (image, target)
    ∧ (∀ (image2 : Image) (target2 : Target), t image target = .ok (image2, target2) →
        Compose.call (t :: ts) image target = Compose.call ts image2 target2)
    ∧ (∀ e : ε, t image target = .error e →
        Compose.call (t :: ts) image target = .error e) := by
  refine ⟨rfl, ?_, ?_⟩
  · intro image2 target2 h
    rw [Compose.call, h]
  · intro e h
    rw [Compose.call, h]

/-- C9 witness: a raising unit makes the whole pipeline fail with that error. -/
theorem compose_spec_witness :
    Compose.call [failT] exImage exTarget = Except.error 5 :=
  (compose_spec failT [] exImage exTarget).2.2 5 rfl
